import Mathlib

/-!
Verification of the expense-processing pipeline of the bot-service
(service.py and repository.py), shallowly embedded in Lean.

Modelling conventions:
- JSON scalar values carried by the parsed model payload are embedded as
  `JValue` (the payload schema is flat: is_expense, description, amount,
  category; compound JSON values do not occur at these keys and are not
  modelled).
- Python dictionaries are association lists, `dict.get` is `pget`.
- Python truthiness of a payload value is `JValue.truthy`.
- Library calls outside the repository (the LLM backend, json.loads) are
  oracles passed as parameters; an exception raised by a step is `none`
  in an `Option` result.
- Database rows live in an explicit `Store`; a SQLAlchemyError on a call
  is a boolean flag passed to the repository function that owns the
  corresponding try block.
- Monetary amounts are embedded as rationals.
-/

/-- Scalar JSON value as produced by parsing the model completion. -/
inductive JValue where
  | null
  | bool (b : Bool)
  | num (q : ℚ)
  | str (s : String)
deriving DecidableEq, Repr

/-- Python truthiness of a payload value (None, False, 0 and the empty
string are falsy). -/
def JValue.truthy : JValue → Bool
  | .null => false
  | .bool b => b
  | .num q => q != 0
  | .str s => s != ""

/-- Python comparison `v <= 0`: defined for numbers and booleans (bool is
an int in Python), raises TypeError otherwise (`none`). -/
def JValue.leZero : JValue → Option Bool
  | .num q => some (decide (q ≤ 0))
  | .bool b => some (!b)
  | _ => none

/-- Python `float(v)` for the values on which it is reached in
analyze_expense_message: after a successful `v <= 0` comparison the value
is a number or a bool, so the remaining cases are unreachable there. -/
def JValue.toFloat : JValue → Option ℚ
  | .num q => some q
  | .bool b => some (if b then 1 else 0)
  | _ => none

/-- Parsed payload: the dictionary returned by json.loads. -/
abbrev Payload := List (String × JValue)

/-- Python `result.get(key)`: value stored at the key, `none` if absent. -/
def pget (p : Payload) (key : String) : Option JValue :=
  (p.find? (fun kv => kv.1 == key)).map (·.2)

/-- Analysis result: the dictionary returned by analyze_expense_message,
either the non-expense dictionary or the expense dictionary with keys
description, amount, category. -/
inductive AnalysisResult where
  | notExpense
  | expense (description : JValue) (amount : ℚ) (category : JValue)
deriving DecidableEq, Repr

/-- Fixed category list from constants.py (EXPENSE_CATEGORIES). -/
def EXPENSE_CATEGORIES : List String :=
  ["Housing", "Transportation", "Food", "Utilities", "Insurance",
   "Medical/Healthcare", "Savings", "Debt", "Education", "Entertainment",
   "Other"]

/-- Characters of the lazy regex tail: consume characters up to and
including the first closing brace, `none` if there is none. -/
def takeThroughClose : List Char → Option (List Char)
  | [] => none
  | c :: cs =>
      if c = '}' then some [c]
      else (takeThroughClose cs).map (fun ms => c :: ms)

/-- Leftmost match of the regex pattern open-brace, lazy any, close-brace
over the characters of the completion: the match starts at the first open
brace and ends at the first closing brace after it. -/
def lazyBraceMatch : List Char → Option (List Char)
  | [] => none
  | c :: cs =>
      if c = '{' then (takeThroughClose cs).map (fun ms => c :: ms)
      else lazyBraceMatch cs

/-- Embeds `re.search` of the lazy brace pattern over the completion text
in analyze_expense_message. -/
def selectJsonRegion (content : String) : Option String :=
  (lazyBraceMatch content.data).map (fun cs => String.mk cs)

/-- Embeds Python `str.strip()`: removes leading and trailing
whitespace. -/
def pyStrip (content : String) : String :=
  String.mk
    (((content.data.dropWhile Char.isWhitespace).reverse.dropWhile
      Char.isWhitespace).reverse)

/-- Embeds the json_str selection of analyze_expense_message: the regex
match when there is one, otherwise the whole stripped completion. -/
def extractJsonStr (content : String) : String :=
  match selectJsonRegion content with
  | some s => s
  | none => pyStrip content

/-- Body of the try block of analyze_expense_message after json.loads:
validates the parsed payload and builds the returned dictionary. `none`
models an exception raised inside the block (caught by the handler). -/
def analyzeCore (result : Payload) : Option AnalysisResult :=
  if !((pget result "is_expense").getD (.bool false)).truthy then
    some .notExpense
  else
    let description := (pget result "description").getD .null
    let amount := (pget result "amount").getD .null
    if !description.truthy then some .notExpense
    else if !amount.truthy then some .notExpense
    else
      match amount.leZero with
      | none => none
      | some true => some .notExpense
      | some false =>
          match amount.toFloat with
          | none => none
          | some a =>
              some (.expense description a
                ((pget result "category").getD (.str "Other")))

/-- Outcome of the single LLM request in analyze_expense_message: the
request either raises or yields a textual completion. -/
inductive LLMOutcome where
  | failure
  | completion (content : String)

/-- Embeds analyze_expense_message. `parse` is the json.loads oracle
(`none` when parsing raises), `llm` maps the user message to the backend
outcome. Every exception path of the try block degrades to the
non-expense result. -/
def analyze_expense_message (parse : String → Option Payload)
    (llm : String → LLMOutcome) (message : String) : AnalysisResult :=
  match llm message with
  | .failure => .notExpense
  | .completion content =>
      match parse (extractJsonStr content) with
      | none => .notExpense
      | some result => (analyzeCore result).getD .notExpense

/-- Row of the users table: internal id and external telegram id. -/
structure UserRow where
  id : Int
  telegram_id : String
deriving DecidableEq, Repr

/-- Row of the expenses table. Description and category are stored as the
values the pipeline passes in (Python does not enforce the str type
hints); added_at is the insertion timestamp. -/
structure ExpenseRow where
  user_id : Int
  description : JValue
  amount : ℚ
  category : JValue
  added_at : Nat
deriving DecidableEq, Repr

/-- Database state seen by the repository. -/
structure Store where
  users : List UserRow
  expenses : List ExpenseRow
deriving DecidableEq, Repr

/-- Embeds ExpenseRepository.is_user_whitelisted: runs the whitelist
lookup and reports whether a row was found; a SQLAlchemyError
(`dbError`) is caught and yields false. -/
def is_user_whitelisted (store : Store) (dbError : Bool)
    (telegram_id : String) : Bool :=
  if dbError then false
  else (store.users.find? (fun u => u.telegram_id == telegram_id)).isSome

/-- Embeds ExpenseRepository.get_user_id: first id of a user row with the
given telegram id; a SQLAlchemyError (`dbError`) is caught and yields
`none`, as does an absent user. -/
def get_user_id (store : Store) (dbError : Bool)
    (telegram_id : String) : Option Int :=
  if dbError then none
  else (store.users.find? (fun u => u.telegram_id == telegram_id)).map (·.id)

/-- Embeds ExpenseRepository.save_expense. `lookupError` is a
SQLAlchemyError inside get_user_id; `insertError` is one inside the save
try block itself (connection or insert), caught there. The Python guard
`if not user_id` is truthiness: it rejects both `None` and the id 0. On
success exactly one row is appended with added_at = now and committed. -/
def save_expense (store : Store) (lookupError insertError : Bool)
    (now : Nat) (telegram_id : String) (description : JValue)
    (amount : ℚ) (category : JValue) : Bool × Store :=
  match get_user_id store lookupError telegram_id with
  | none => (false, store)
  | some uid =>
      if uid = 0 then (false, store)
      else if insertError then (false, store)
      else
        (true, { store with
          expenses := store.expenses ++
            [⟨uid, description, amount, category, now⟩] })

/-- Join of expenses with users on user_id filtered by telegram id, as in
the SELECT of get_user_expenses and get_expense_stats. -/
def userRows (store : Store) (telegram_id : String) : List ExpenseRow :=
  (store.users.filter (fun u => u.telegram_id == telegram_id)).flatMap
    (fun u => store.expenses.filter (fun e => e.user_id == u.id))

/-- Embeds ExpenseRepository.get_user_expenses: the joined rows ordered
by added_at descending, truncated to the limit; a SQLAlchemyError yields
the empty list. -/
def get_user_expenses (store : Store) (dbError : Bool)
    (telegram_id : String) (limit : Nat) : List ExpenseRow :=
  if dbError then []
  else
    (List.insertionSort (fun a b => b.added_at ≤ a.added_at)
      (userRows store telegram_id)).take limit

/-- Statistics dictionary built by get_expense_stats. Categories hold
(category, count, total amount) in the order the grouped rows arrive. -/
structure Stats where
  total_expenses : Nat
  total_amount : ℚ
  categories : List (JValue × Nat × ℚ)
deriving DecidableEq, Repr

/-- GROUP BY category of the joined rows, each group with its count and
amount sum, ordered by total amount descending as in the query. -/
def categoryGroups (store : Store) (telegram_id : String) :
    List (JValue × Nat × ℚ) :=
  let rows := userRows store telegram_id
  let keys := (rows.map (·.category)).dedup
  List.insertionSort (fun a b => b.2.2 ≤ a.2.2)
    (keys.map (fun k =>
      let group := rows.filter (fun e => e.category == k)
      (k, group.length, (group.map (·.amount)).sum)))

/-- Embeds ExpenseRepository.get_expense_stats: folds the grouped rows
into the totals; a SQLAlchemyError yields the zero statistics. -/
def get_expense_stats (store : Store) (dbError : Bool)
    (telegram_id : String) : Stats :=
  if dbError then ⟨0, 0, []⟩
  else
    let groups := categoryGroups store telegram_id
    { total_expenses := (groups.map (·.2.1)).sum
      total_amount := (groups.map (·.2.2)).sum
      categories := groups }

/-- Pipeline outcome: the success flag and message variant of the
dictionary returned by process_expense, with the echoed fields in the
recorded case. -/
inductive Outcome where
  | unauthorized
  | nonExpense
  | invalidData
  | saveFailed
  | recorded (description : JValue) (amount : ℚ) (category : JValue)
deriving DecidableEq, Repr

/-- Result of one process_expense invocation: outcome, database state
after the call, and whether the Extractor (LLM analysis) was invoked. -/
structure ProcResult where
  outcome : Outcome
  store : Store
  extractorCalled : Bool
deriving DecidableEq, Repr

/-- Environment of one pipeline invocation: database state, the oracles
for the external collaborators, the error flags of the repository calls
that run during the invocation, and the insertion timestamp. -/
structure World where
  store : Store
  authError : Bool
  parse : String → Option Payload
  llm : String → LLMOutcome
  lookupError : Bool
  insertError : Bool
  now : Nat

/-- Embeds ExpenseService.process_expense: authorize, analyze, validate,
save, in that order, each failure terminal. -/
def process_expense (w : World) (telegram_id message : String) :
    ProcResult :=
  if !is_user_whitelisted w.store w.authError telegram_id then
    ⟨.unauthorized, w.store, false⟩
  else
    match analyze_expense_message w.parse w.llm message with
    | .notExpense => ⟨.nonExpense, w.store, true⟩
    | .expense description amount category =>
        if !description.truthy || amount ≤ 0 then
          ⟨.invalidData, w.store, true⟩
        else
          match save_expense w.store w.lookupError w.insertError w.now
              telegram_id description amount category with
          | (true, store2) =>
              ⟨.recorded description amount category, store2, true⟩
          | (false, store2) => ⟨.saveFailed, store2, true⟩

/-- Fixture: a payload that is a valid expense except that its category
is outside the fixed category list. -/
def gibberishPayload : Payload :=
  [("is_expense", .bool true), ("description", .str "Pizza"),
   ("amount", .num 20), ("category", .str "Gibberish")]

/-- Fixture: a fully valid expense payload. -/
def foodPayload : Payload :=
  [("is_expense", .bool true), ("description", .str "Pizza"),
   ("amount", .num 20), ("category", .str "Food")]

/-- Fixture: store with one whitelisted user of internal id 1. -/
def storeAlice : Store := ⟨[⟨1, "alice"⟩], []⟩

/-- Fixture: healthy environment whose model payload carries the
out-of-set category. -/
def worldGibberish : World :=
  { store := storeAlice, authError := false,
    parse := fun _ => some gibberishPayload,
    llm := fun _ => .completion "\x7b\"x\": 1\x7d",
    lookupError := false, insertError := false, now := 5 }

/-- Fixture: environment with a database outage during the insert. -/
def worldOutage : World :=
  { store := storeAlice, authError := false,
    parse := fun _ => some foodPayload,
    llm := fun _ => .completion "\x7b\"x\": 1\x7d",
    lookupError := false, insertError := true, now := 9 }

/-- Fixture: environment with an empty store and a dead backend. -/
def emptyWorld : World :=
  { store := ⟨[], []⟩, authError := false,
    parse := fun _ => none, llm := fun _ => .failure,
    lookupError := false, insertError := false, now := 0 }

/-- Fixture: store with one user whose internal id is 0 and one user of
positive id, used for read-path and truthiness facts. -/
def storeZed : Store := ⟨[⟨0, "zed"⟩], []⟩

/-- Fixture: store with two expenses of one user in two categories. -/
def storeTwoRows : Store :=
  ⟨[⟨1, "alice"⟩],
   [⟨1, .str "Pizza", 20, .str "Food", 1⟩,
    ⟨1, .str "Gas", 5, .str "Transportation", 2⟩]⟩

lemma analyzeCore_expense_sound {p : Payload} {d : JValue} {a : ℚ}
    {c : JValue} (h : analyzeCore p = some (.expense d a c)) :
    d.truthy = true ∧ 0 < a := by
  simp only [analyzeCore] at h
  split_ifs at h with h1 h2 h3
  · simp at h
  · simp at h
  · simp at h
  · rcases hle : ((pget p "amount").getD .null).leZero with _ | b
    · rw [hle] at h; simp at h
    · rw [hle] at h
      rcases b
      · rcases htf : ((pget p "amount").getD .null).toFloat with _ | a0
        · rw [htf] at h; simp at h
        · rw [htf] at h
          simp only [Option.some.injEq, AnalysisResult.expense.injEq] at h
          obtain ⟨hd, ha, -⟩ := h
          subst hd
          subst ha
          refine ⟨by simpa using h2, ?_⟩
          generalize hv : (pget p "amount").getD .null = v at hle htf
          rcases v with _ | bb | q | s
          · simp [JValue.leZero] at hle
          · simp [JValue.leZero] at hle
            simp [JValue.toFloat, hle] at htf
            rw [← htf]; norm_num
          · simp [JValue.leZero] at hle
            simp [JValue.toFloat] at htf
            rw [← htf]; exact hle
          · simp [JValue.leZero] at hle
      · simp at h

lemma analyze_expense_sound {parse : String → Option Payload}
    {llm : String → LLMOutcome} {message : String} {d : JValue} {a : ℚ}
    {c : JValue}
    (h : analyze_expense_message parse llm message = .expense d a c) :
    d.truthy = true ∧ 0 < a := by
  unfold analyze_expense_message at h
  split at h
  · simp at h
  · rename_i content _
    split at h
    · simp at h
    · rename_i p hp
      rcases hc : analyzeCore p with _ | r
      · rw [hc] at h; simp at h
      · rw [hc] at h
        simp at h
        subst h
        exact analyzeCore_expense_sound hc

lemma takeThroughClose_append (mid post : List Char)
    (hmid : '}' ∉ mid) :
    takeThroughClose (mid ++ '}' :: post) = some (mid ++ ['}']) := by
  induction mid with
  | nil => simp [takeThroughClose]
  | cons x xs ih =>
      have hx : x ≠ '}' := fun hx => hmid (hx ▸ List.mem_cons_self x xs)
      have hxs : '}' ∉ xs := fun hm => hmid (List.mem_cons_of_mem x hm)
      simp [takeThroughClose, hx, ih hxs]

lemma lazyBraceMatch_append (pre mid post : List Char)
    (hpre : '{' ∉ pre) (hmid : '}' ∉ mid) :
    lazyBraceMatch (pre ++ '{' :: (mid ++ '}' :: post))
      = some ('{' :: (mid ++ ['}'])) := by
  induction pre with
  | nil => simp [lazyBraceMatch, takeThroughClose_append mid post hmid]
  | cons x xs ih =>
      have hx : x ≠ '{' := fun hx => hpre (hx ▸ List.mem_cons_self x xs)
      have hxs : '{' ∉ xs := fun hm => hpre (List.mem_cons_of_mem x hm)
      simp [lazyBraceMatch, hx, ih hxs]

lemma sum_map_ite_zero {M κ : Type} [AddCommMonoid M] [DecidableEq κ]
    (c : κ) (x : M) :
    ∀ keys : List κ, c ∉ keys →
      (keys.map (fun k => if c = k then x else 0)).sum = 0 := by
  intro keys
  induction keys with
  | nil => simp
  | cons k ks ih =>
      intro hc
      have hk : c ≠ k := fun h => hc (h ▸ List.mem_cons_self k ks)
      have hks : c ∉ ks := fun h => hc (List.mem_cons_of_mem k h)
      simp [hk, ih hks]

lemma sum_map_ite_single {M κ : Type} [AddCommMonoid M] [DecidableEq κ]
    (c : κ) (x : M) :
    ∀ keys : List κ, keys.Nodup → c ∈ keys →
      (keys.map (fun k => if c = k then x else 0)).sum = x := by
  intro keys
  induction keys with
  | nil => simp
  | cons k ks ih =>
      intro hnd hc
      rcases List.mem_cons.mp hc with h | h
      · subst h
        simp [sum_map_ite_zero c x ks (List.nodup_cons.mp hnd).1]
      · have hk : c ≠ k := fun he => (List.nodup_cons.mp hnd).1 (he ▸ h)
        simp [hk, ih (List.nodup_cons.mp hnd).2 h]

lemma sum_map_filter_key {α κ M : Type} [DecidableEq κ] [AddCommMonoid M]
    (key : α → κ) (f : α → M) :
    ∀ (rows : List α) (keys : List κ), keys.Nodup →
      (∀ r ∈ rows, key r ∈ keys) →
      (keys.map
          (fun k => ((rows.filter (fun r => key r == k)).map f).sum)).sum
        = (rows.map f).sum := by
  intro rows
  induction rows with
  | nil => intro keys _ _; simp
  | cons r rs ih =>
      intro keys hnd hmem
      have hr : key r ∈ keys := hmem r (List.mem_cons_self r rs)
      have hrs : ∀ x ∈ rs, key x ∈ keys :=
        fun x hx => hmem x (List.mem_cons_of_mem r hx)
      have hsplit : ∀ k : κ,
          (((r :: rs).filter (fun x => key x == k)).map f).sum
            = (if key r = k then f r else 0)
              + ((rs.filter (fun x => key x == k)).map f).sum := by
        intro k
        by_cases h : key r = k
        · simp [List.filter_cons, h]
        · simp [List.filter_cons, h]
      calc (keys.map
              (fun k =>
                (((r :: rs).filter (fun x => key x == k)).map f).sum)).sum
          = (keys.map
              (fun k => (if key r = k then f r else 0)
                + ((rs.filter (fun x => key x == k)).map f).sum)).sum := by
            simp only [hsplit]
        _ = (keys.map (fun k => if key r = k then f r else 0)).sum
              + (keys.map
                  (fun k =>
                    ((rs.filter (fun x => key x == k)).map f).sum)).sum := by
            rw [List.sum_map_add]
        _ = f r + (rs.map f).sum := by
            rw [sum_map_ite_single (key r) (f r) keys hnd hr,
              ih keys hnd hrs]
        _ = ((r :: rs).map f).sum := by simp

lemma length_eq_sum_map_one {α : Type} (l : List α) :
    l.length = (l.map (fun _ => (1 : ℕ))).sum := by
  induction l with
  | nil => rfl
  | cons x xs ih =>
      simp only [List.length_cons, List.map_cons, List.sum_cons, ih]
      omega

/-- C3: for every message, every backend behaviour (failure or any
completion) and every parse behaviour, analyze_expense_message never
raises: a backend failure, a parse failure and an exception inside the
validation block all yield the non-expense result, and the function
always returns one of the two well-formed result dictionaries. -/
theorem C3_no_exception_propagation (parse : String → Option Payload)
    (llm : String → LLMOutcome) (message : String) :
    (llm message = .failure →
      analyze_expense_message parse llm message = .notExpense)
    ∧ (∀ content, llm message = .completion content →
        parse (extractJsonStr content) = none →
        analyze_expense_message parse llm message = .notExpense)
    ∧ (∀ content p, llm message = .completion content →
        parse (extractJsonStr content) = some p →
        analyzeCore p = none →
        analyze_expense_message parse llm message = .notExpense)
    ∧ (analyze_expense_message parse llm message = .notExpense ∨
        ∃ d a c,
          analyze_expense_message parse llm message = .expense d a c) := by
  refine ⟨?_, ?_, ?_, ?_⟩
  · intro h; simp [analyze_expense_message, h]
  · intro content h hp; simp [analyze_expense_message, h, hp]
  · intro content p h hp hc; simp [analyze_expense_message, h, hp, hc]
  · rcases hr : analyze_expense_message parse llm message with _ | ⟨d, a, c⟩
    · exact Or.inl rfl
    · exact Or.inr ⟨d, a, c, rfl⟩

/-- C3 witness: a dead backend yields the non-expense result. -/
theorem C3_witness :
    analyze_expense_message (fun _ => none) (fun _ => .failure) "hello"
      = .notExpense :=
  (C3_no_exception_propagation (fun _ => none) (fun _ => .failure)
    "hello").1 rfl

/-- C4: on every parsed payload, a false or absent is_expense field
yields the non-expense result; and with a true is_expense, an empty or
absent description, a missing amount, or a non-positive numeric amount
also yield the non-expense result rather than an error. -/
theorem C4_payload_validation (p : Payload) :
    ((pget p "is_expense" = none ∨
        pget p "is_expense" = some (.bool false)) →
      analyzeCore p = some .notExpense)
    ∧ (((pget p "is_expense").getD (.bool false)).truthy = true →
        ((pget p "description" = none ∨
            pget p "description" = some (.str "")) →
          analyzeCore p = some .notExpense)
        ∧ (pget p "amount" = none → analyzeCore p = some .notExpense)
        ∧ (∀ q : ℚ, pget p "amount" = some (.num q) → q ≤ 0 →
            analyzeCore p = some .notExpense)) := by
  constructor
  · rintro (h | h) <;> simp [analyzeCore, h, JValue.truthy]
  · intro hflag
    refine ⟨?_, ?_, ?_⟩
    · rintro (h | h) <;> simp [analyzeCore, hflag, h, JValue.truthy]
    · intro h; simp [analyzeCore, hflag, h, JValue.truthy]
    · intro q hq hle
      simp [analyzeCore, hflag, hq, JValue.truthy, JValue.leZero, hle]

/-- C4 witness: the empty payload has an absent is_expense field and is
reported as a non-expense. -/
theorem C4_witness : analyzeCore [] = some .notExpense :=
  (C4_payload_validation []).1 (Or.inl rfl)

/-- C5: whenever the authorization gate answers false, process_expense
returns the unauthorized outcome, leaves the store unchanged and never
invokes the Extractor. -/
theorem C5_unauthorized_short_circuit (w : World) (tid msg : String)
    (h : is_user_whitelisted w.store w.authError tid = false) :
    process_expense w tid msg = ⟨.unauthorized, w.store, false⟩ := by
  simp [process_expense, h]

/-- C5 witness: an unknown user is rejected without reaching the
Extractor. -/
theorem C5_witness :
    process_expense emptyWorld "bob" "hi"
      = ⟨.unauthorized, emptyWorld.store, false⟩ :=
  C5_unauthorized_short_circuit emptyWorld "bob" "hi" (by decide)

/-- C8: the authorization gate returns false both on a database error
during the lookup and when no user row carries the external id; it is a
total function of the store with no effect on it. -/
theorem C8_gate_error_containment (store : Store) (dbError : Bool)
    (tid : String) :
    (dbError = true → is_user_whitelisted store dbError tid = false)
    ∧ ((∀ u ∈ store.users, u.telegram_id ≠ tid) →
        is_user_whitelisted store dbError tid = false) := by
  constructor
  · intro h; simp [is_user_whitelisted, h]
  · intro h
    have hfind : store.users.find? (fun u => u.telegram_id == tid) = none :=
      List.find?_eq_none.mpr (fun u hu => by simpa using h u hu)
    rcases dbError <;> simp [is_user_whitelisted, hfind]

/-- C8 witness: a store without the external id rejects it. -/
theorem C8_witness :
    is_user_whitelisted ⟨[⟨1, "alice"⟩], []⟩ false "bob" = false :=
  (C8_gate_error_containment ⟨[⟨1, "alice"⟩], []⟩ false "bob").2
    (by decide)

/-- C10: when the external id resolves to the internal id 0,
save_expense returns false and stores nothing, because the Python
truthiness guard on the resolved id conflates the id 0 with an absent
user. -/
theorem C10_zero_internal_id_rejected (store : Store)
    (insertError : Bool) (now : Nat) (tid : String) (d : JValue)
    (a : ℚ) (c : JValue)
    (h : get_user_id store false tid = some 0) :
    save_expense store false insertError now tid d a c = (false, store) := by
  simp [save_expense, h]

/-- C10 witness: the user zed has internal id 0, the lookup succeeds,
and saving an expense for zed still fails. -/
theorem C10_witness :
    get_user_id storeZed false "zed" = some 0 ∧
      save_expense storeZed false false 7 "zed" (.str "Tea") 3
          (.str "Food")
        = (false, storeZed) :=
  ⟨by decide,
   C10_zero_internal_id_rejected storeZed false 7 "zed" (.str "Tea") 3
     (.str "Food") (by decide)⟩

lemma save_expense_cases (store : Store) (le ie : Bool) (now : Nat)
    (tid : String) (d : JValue) (a : ℚ) (c : JValue) :
    save_expense store le ie now tid d a c = (false, store)
    ∨ ∃ uid, uid ≠ 0 ∧ get_user_id store le tid = some uid ∧ ie = false ∧
        save_expense store le ie now tid d a c
          = (true, { store with
              expenses := store.expenses ++ [⟨uid, d, a, c, now⟩] }) := by
  unfold save_expense
  rcases h : get_user_id store le tid with _ | uid
  · simp
  · by_cases h0 : uid = 0
    · simp [h0]
    · rcases hie : ie
      · exact Or.inr ⟨uid, h0, rfl, rfl, by simp [h0]⟩
      · simp [h0]

/-- C1 counterexample: with a model payload whose category is the
out-of-set string Gibberish, the Extractor passes Gibberish onward
unchanged, the pipeline records it, and the persisted row carries a
category outside the fixed set; no coercion to Other happens. -/
theorem C1_counterexample :
    process_expense worldGibberish "alice" "Pizza 20 bucks"
      = ⟨.recorded (.str "Pizza") 20 (.str "Gibberish"),
         ⟨[⟨1, "alice"⟩],
          [⟨1, .str "Pizza", 20, .str "Gibberish", 5⟩]⟩, true⟩
    ∧ "Gibberish" ∉ EXPENSE_CATEGORIES ∧ "Gibberish" ≠ "Other" := by
  exact ⟨by decide, by decide, by decide⟩

/-- C1 (amended): the Extractor substitutes the catch-all category Other
only when the category key is absent from the parsed payload; a present
category value is passed onward unchanged, even when it lies outside the
fixed category set, and an out-of-set category never causes rejection:
every payload with a truthy is_expense, a truthy description and a
positive numeric amount yields the expense result, with the category
taken verbatim from the payload when present and Other otherwise. -/
theorem C1_amended (p : Payload) (q : ℚ)
    (hflag : ((pget p "is_expense").getD (.bool false)).truthy = true)
    (hdesc : ((pget p "description").getD .null).truthy = true)
    (hamt : pget p "amount" = some (.num q)) (hq : 0 < q) :
    analyzeCore p
      = some (.expense ((pget p "description").getD .null) q
          ((pget p "category").getD (.str "Other"))) := by
  have hq0 : q ≠ 0 := ne_of_gt hq
  have hle : ¬ q ≤ 0 := not_le.mpr hq
  have htr : (JValue.num q).truthy = true := by simp [JValue.truthy, hq0]
  simp [analyzeCore, hflag, hdesc, hamt, htr, JValue.leZero,
    JValue.toFloat, hle]

/-- C1 amended witness: the Gibberish payload is accepted and keeps its
category verbatim. -/
theorem C1_amended_witness :
    analyzeCore gibberishPayload
      = some (.expense ((pget gibberishPayload "description").getD .null)
          20 ((pget gibberishPayload "category").getD (.str "Other"))) :=
  C1_amended gibberishPayload 20 (by decide) (by decide) (by decide)
    (by norm_num)

/-- C2 counterexample: on a completion that is exactly a well-formed
JSON object with nested braces, the selected region stops at the first
closing brace and is a strict prefix of the balanced object, not the
balanced object itself. -/
theorem C2_counterexample :
    selectJsonRegion "\x7b\"a\": \x7b\"b\": 1\x7d\x7d" = some "\x7b\"a\": \x7b\"b\": 1\x7d"
    ∧ "\x7b\"a\": \x7b\"b\": 1\x7d" ≠ "\x7b\"a\": \x7b\"b\": 1\x7d\x7d" := by
  exact ⟨by decide, by decide⟩

/-- C2 (amended): the region selected for parsing starts at the first
opening brace and ends at the first closing brace after it (a lazy, not
a balanced, match): for every completion of the form pre, open brace,
mid, close brace, post with no opening brace in pre and no closing brace
in mid, the selected region is exactly open brace, mid, close brace.
For a flat object this is the whole object; a nested object is cut at
its first closing brace. When no such region exists the whole stripped
completion is used instead. -/
theorem C2_amended (pre mid post : List Char)
    (hpre : '{' ∉ pre) (hmid : '}' ∉ mid) :
    selectJsonRegion (String.mk (pre ++ '{' :: (mid ++ '}' :: post)))
      = some (String.mk ('{' :: (mid ++ ['}']))) := by
  unfold selectJsonRegion
  rw [show (String.mk (pre ++ '{' :: (mid ++ '}' :: post))).data
      = pre ++ '{' :: (mid ++ '}' :: post) from rfl]
  rw [lazyBraceMatch_append pre mid post hpre hmid]
  rfl

/-- C2 amended witness: a concrete lazy match. -/
theorem C2_amended_witness :
    selectJsonRegion (String.mk (['x'] ++ '{' :: (['a'] ++ '}' :: ['y'])))
      = some (String.mk ('{' :: (['a'] ++ ['}']))) :=
  C2_amended ['x'] ['a'] ['y'] (by decide) (by decide)

/-- C9: every expense result of the real Extractor has a truthy
description and a strictly positive amount, so the validation branch of
the Orchestrator is unreachable: process_expense never returns the
invalid-extraction outcome, whatever the environment. -/
theorem C9_validator_branch_unreachable (w : World) (tid msg : String) :
    (∀ d a c,
      analyze_expense_message w.parse w.llm msg = .expense d a c →
      d.truthy = true ∧ 0 < a)
    ∧ (process_expense w tid msg).outcome ≠ .invalidData := by
  constructor
  · intro d a c h; exact analyze_expense_sound h
  · unfold process_expense
    split
    · simp
    · rcases hr : analyze_expense_message w.parse w.llm msg with _ | ⟨d, a, c⟩
      · simp
      · obtain ⟨hd, ha⟩ := analyze_expense_sound hr
        rcases hs : save_expense w.store w.lookupError w.insertError w.now
            tid d a c with ⟨ok, st⟩
        rcases ok <;> simp [hd, ha.not_le, hs]

/-- C9 witness: the sound-extraction half applied to a concrete run. -/
theorem C9_witness :
    JValue.truthy (.str "Pizza") = true ∧ (0 : ℚ) < 20 :=
  (C9_validator_branch_unreachable worldGibberish "alice" "m").1
    (.str "Pizza") 20 (.str "Gibberish") (by decide)

/-- C6: save_expense returns false and leaves the store untouched on a
lookup error, an unresolved external id, or any other failure; a
successful save appends exactly one row carrying the resolved internal
id and the current timestamp; and in the pipeline a false return from
save_expense yields the persistence-failed outcome, with no exception
escaping process_expense. -/
theorem C6_save_error_containment (w : World) (tid msg : String)
    (d : JValue) (a : ℚ) (c : JValue) :
    (w.lookupError = true →
      save_expense w.store w.lookupError w.insertError w.now tid d a c
        = (false, w.store))
    ∧ (get_user_id w.store w.lookupError tid = none →
        save_expense w.store w.lookupError w.insertError w.now tid d a c
          = (false, w.store))
    ∧ ((save_expense w.store w.lookupError w.insertError w.now tid d a
          c).1 = false →
        (save_expense w.store w.lookupError w.insertError w.now tid d a
          c).2 = w.store)
    ∧ ((save_expense w.store w.lookupError w.insertError w.now tid d a
          c).1 = true →
        ∃ uid, get_user_id w.store w.lookupError tid = some uid ∧
          (save_expense w.store w.lookupError w.insertError w.now tid d a
            c).2
            = { w.store with
                expenses := w.store.expenses ++ [⟨uid, d, a, c, w.now⟩] })
    ∧ (is_user_whitelisted w.store w.authError tid = true →
        analyze_expense_message w.parse w.llm msg = .expense d a c →
        (save_expense w.store w.lookupError w.insertError w.now tid d a
          c).1 = false →
        (process_expense w tid msg).outcome = .saveFailed) := by
  refine ⟨?_, ?_, ?_, ?_, ?_⟩
  · intro h; simp [save_expense, get_user_id, h]
  · intro h; simp [save_expense, h]
  · intro hfalse
    rcases save_expense_cases w.store w.lookupError w.insertError w.now
        tid d a c with h | ⟨uid, h0, hg, hie, h⟩
    · rw [h]
    · rw [h] at hfalse; simp at hfalse
  · intro htrue
    rcases save_expense_cases w.store w.lookupError w.insertError w.now
        tid d a c with h | ⟨uid, h0, hg, hie, h⟩
    · rw [h] at htrue; simp at htrue
    · exact ⟨uid, hg, by rw [h]⟩
  · intro hauth hana hfalse
    unfold process_expense
    rw [hauth]
    simp only [Bool.not_true, Bool.false_eq_true, if_false]
    rw [hana]
    obtain ⟨hd, ha⟩ := analyze_expense_sound hana
    rcases hs : save_expense w.store w.lookupError w.insertError w.now
        tid d a c with ⟨ok, st⟩
    rw [hs] at hfalse
    simp at hfalse
    subst hfalse
    simp [hd, ha.not_le, hs]

/-- C6 witness: a database outage during the insert surfaces as the
persistence-failed outcome of the pipeline. -/
theorem C6_witness :
    (process_expense worldOutage "alice" "Pizza 20 bucks").outcome
      = .saveFailed :=
  (C6_save_error_containment worldOutage "alice" "Pizza 20 bucks"
      (.str "Pizza") 20 (.str "Food")).2.2.2.2 (by decide) (by decide)
    (by decide)

/-- C7: when the limit is at least the number of expense rows of the
user, the aggregate totals of get_expense_stats equal the length of the
get_user_expenses result and the sum of its amounts. -/
theorem C7_read_paths_consistent (store : Store) (tid : String)
    (limit : Nat) (h : (userRows store tid).length ≤ limit) :
    (get_expense_stats store false tid).total_expenses
        = (get_user_expenses store false tid limit).length
    ∧ (get_expense_stats store false tid).total_amount
        = ((get_user_expenses store false tid limit).map (·.amount)).sum := by
  have hsortperm :
      (List.insertionSort (fun a b => b.added_at ≤ a.added_at)
        (userRows store tid)).Perm (userRows store tid) :=
    List.perm_insertionSort _ _
  have hlist : get_user_expenses store false tid limit
      = List.insertionSort (fun a b => b.added_at ≤ a.added_at)
          (userRows store tid) := by
    simp only [get_user_expenses, Bool.false_eq_true, if_false]
    exact List.take_of_length_le (by rw [List.length_insertionSort]; exact h)
  have hgroupsperm : (categoryGroups store tid).Perm
      (((userRows store tid).map (·.category)).dedup.map (fun k =>
        (k, ((userRows store tid).filter
              (fun e => e.category == k)).length,
          (((userRows store tid).filter
              (fun e => e.category == k)).map (·.amount)).sum))) := by
    unfold categoryGroups
    exact List.perm_insertionSort _ _
  have hnd := List.nodup_dedup ((userRows store tid).map (·.category))
  have hmem : ∀ r ∈ userRows store tid,
      r.category ∈ ((userRows store tid).map (·.category)).dedup :=
    fun r hr => List.mem_dedup.mpr (List.mem_map_of_mem _ hr)
  have hstats : get_expense_stats store false tid
      = { total_expenses := ((categoryGroups store tid).map (·.2.1)).sum
          total_amount := ((categoryGroups store tid).map (·.2.2)).sum
          categories := categoryGroups store tid } := by
    simp [get_expense_stats]
  constructor
  · rw [hstats, hlist]
    simp only [List.length_insertionSort]
    rw [(hgroupsperm.map (·.2.1)).sum_eq, List.map_map]
    have hones := sum_map_filter_key (fun e : ExpenseRow => e.category)
      (fun _ => (1 : ℕ)) (userRows store tid)
      (((userRows store tid).map (·.category)).dedup) hnd hmem
    calc ((((userRows store tid).map (·.category)).dedup).map
            ((·.2.1) ∘ (fun k =>
              (k, ((userRows store tid).filter
                    (fun e => e.category == k)).length,
                (((userRows store tid).filter
                    (fun e => e.category == k)).map (·.amount)).sum)))).sum
        = ((((userRows store tid).map (·.category)).dedup).map (fun k =>
            (((userRows store tid).filter (fun e => e.category == k)).map
              (fun _ => (1 : ℕ))).sum)).sum := by
          simp only [Function.comp_def]
          simp only [← length_eq_sum_map_one]
      _ = ((userRows store tid).map (fun _ => (1 : ℕ))).sum := hones
      _ = (userRows store tid).length :=
          (length_eq_sum_map_one (userRows store tid)).symm
  · rw [hstats, hlist]
    rw [(hsortperm.map (·.amount)).sum_eq]
    rw [(hgroupsperm.map (·.2.2)).sum_eq, List.map_map]
    have hamts := sum_map_filter_key (fun e : ExpenseRow => e.category)
      (fun e : ExpenseRow => e.amount) (userRows store tid)
      (((userRows store tid).map (·.category)).dedup) hnd hmem
    calc ((((userRows store tid).map (·.category)).dedup).map
            ((·.2.2) ∘ (fun k =>
              (k, ((userRows store tid).filter
                    (fun e => e.category == k)).length,
                (((userRows store tid).filter
                    (fun e => e.category == k)).map (·.amount)).sum)))).sum
        = ((((userRows store tid).map (·.category)).dedup).map (fun k =>
            (((userRows store tid).filter (fun e => e.category == k)).map
              (fun e : ExpenseRow => e.amount)).sum)).sum := by
          simp only [Function.comp_def]
      _ = ((userRows store tid).map (fun e : ExpenseRow => e.amount)).sum :=
          hamts

/-- C7 witness: a concrete two-row store with a generous limit. -/
theorem C7_witness :
    (get_expense_stats storeTwoRows false "alice").total_expenses
        = (get_user_expenses storeTwoRows false "alice" 10).length
    ∧ (get_expense_stats storeTwoRows false "alice").total_amount
        = ((get_user_expenses storeTwoRows false "alice" 10).map
            (·.amount)).sum :=
  C7_read_paths_consistent storeTwoRows "alice" 10 (by decide)
